import Mathlib

/-!
Verification of the queryport client and its connection pool.

The definitions below are a shallow embedding of two source files:
* `secondary/queryport/client/client.go` — the query client protocol driver
  (`Statistics`, `Scan`, `ScanAll`, `streamResponse`, `closeStream`);
* the connection pool (`newConnectionPool`, `GetWithTimeout`, `Return`,
  `numConnsToRetain`, `releaseConns`, `releaseConnsRoutine`, `Close`).

Network transport is represented by oracles: a wire record lists the outcome of
each send and receive the code performs.  The go-metrics EWMA is a float owned
by the background routine; its reported rate is abstracted as a nonnegative
rational oracle input.  Counters (`curActConns`, `freeConns`) are int32 in the
source and are modelled as `Int`; all reachable values are bounded by the small
configured capacities, so wraparound never matters.
-/

namespace Queryport

/-- A transport-level send or receive failure; `eof` models io.EOF, which
`closeStream` distinguishes from other errors. -/
inductive TransportError
  | eof
  | timeout
  | other (code : Nat)
deriving DecidableEq

/-- One decoded frame.  The Go code discriminates frames by their protobuf
type: `StatisticsResponse` (carrying an optional embedded error and a stats
payload, both abstracted), `StreamEndResponse`, and any other response kind. -/
inductive Frame
  | statsResp (errMsg : Option String) (stats : Nat)
  | streamEnd
  | dataFrame (payload : Nat)
deriving DecidableEq

/-- Outcome of one `pkt.Receive(conn)` call. -/
abbrev RecvResult := Except TransportError Frame

/-- Errors a client operation can return: a propagated transport error,
`ErrorProtocol`, or an error message embedded in a statistics response. -/
inductive QueryError
  | transport (e : TransportError)
  | protocol
  | application (msg : String)
deriving DecidableEq

/-- Result of a `Statistics` call.  `panicked` marks the unchecked Go type
assertion `resp.(*protobuf.StatisticsResponse)` failing at run time. -/
inductive StatOutcome
  | ok (stats : Nat)
  | err (e : QueryError)
  | panicked
deriving DecidableEq

/-- Wire oracle for one `Statistics` call: the outcome of the request send and
of the two receives the code performs. -/
structure StatWire where
  sendErr : Option TransportError
  recv1 : RecvResult
  recv2 : RecvResult

/-- Observable result of a `Statistics` call.  `healthyArg` is the value the
deferred `c.pool.Return(connectn, healthy)` receives: Go evaluates the
arguments of a deferred call at the `defer` statement, so this is the value of
`healthy` at that point.  `healthyVar` is the final value of the local
`healthy` variable, recorded to exhibit the divergence between the two. -/
structure StatRun where
  outcome : StatOutcome
  healthyArg : Bool
  healthyVar : Bool
deriving DecidableEq

/-- Shallow embedding of `Client.Statistics` (client.go lines 76-136), after a
connection has been acquired.  `healthy := true` is captured by the deferred
`Return` immediately, so `healthyArg` is `true` on every path.  The code
checks only the type of the second frame (`endResp`); a receive error leaves
`endResp` nil, which also fails that type check and yields `ErrorProtocol`.
The first frame is never type checked: it is consumed by the unchecked type
assertion `resp.(*protobuf.StatisticsResponse)`. -/
def statisticsModel (w : StatWire) : StatRun :=
  match w.sendErr with
  | some e => ⟨.err (.transport e), true, false⟩
  | none =>
    match w.recv1 with
    | .error e => ⟨.err (.transport e), true, false⟩
    | .ok resp =>
      match w.recv2 with
      | .error _ => ⟨.err .protocol, true, true⟩
      | .ok endResp =>
        match endResp with
        | .streamEnd =>
          match resp with
          | .statsResp (some m) _ => ⟨.err (.application m), true, true⟩
          | .statsResp none s => ⟨.ok s, true, true⟩
          | _ => ⟨.panicked, true, true⟩
        | _ => ⟨.err .protocol, true, true⟩

/-- One invocation of the response handler callback during a scan: either a
decoded frame or a receive error (the code calls `callb(err)` on failure). -/
inductive CbEvent
  | frame (f : Frame)
  | failure (e : TransportError)
deriving DecidableEq

/-- Wire oracle for one `Scan` or `ScanAll` call: outcome of the scan-request
send, the stream of receive outcomes, and the outcome of the
`EndStreamRequest` send that `closeStream` performs if invoked.  An exhausted
receive list models the server closing the connection: the next receive
reports io.EOF. -/
structure ScanWire where
  sendErr : Option TransportError
  recvs : List RecvResult
  closeSendErr : Option TransportError

/-- Drain loop of `closeStream` (client.go lines 282-297): flush frames until
an end-of-stream marker (err nil), io.EOF (returned as the error), or another
transport error (returned).  An empty oracle means the next receive reports
io.EOF. -/
def closeStreamDrain : List RecvResult → Option TransportError
  | [] => some .eof
  | .error e :: _ => some e
  | .ok .streamEnd :: _ => none
  | .ok _ :: rest => closeStreamDrain rest

/-- Embedding of `Client.closeStream` (client.go lines 265-299): send an
`EndStreamRequest` (abort on failure, returning the send error), then drain. -/
def closeStreamModel (sendErr : Option TransportError) (recvs : List RecvResult) :
    Option TransportError :=
  match sendErr with
  | some e => some e
  | none => closeStreamDrain recvs

/-- The driver loop of `Scan` / `ScanAll` after a successful request send:
`for cont { cont, healthy, err = c.streamResponse(conn, pkt, callb) }`.
Each iteration embeds `Client.streamResponse` (client.go lines 228-263):
* receive error: the callback gets the error; cont=false, healthy=false;
* `StreamEndResponse`: the callback gets the frame; cont=false, healthy=true;
* other frame: cont is the callback result, healthy=true; when the callback
  declines (cont=false, finish=false) `closeStream` runs and its error is
  assigned to `err` (which the caller only logs).
The value is the callback trace, the final value of the `healthy` variable,
and the final value of the `err` variable. -/
def scanLoop (callb : Frame → Bool) (closeSendErr : Option TransportError) :
    List RecvResult → List CbEvent × Bool × Option TransportError
  | [] => ([.failure .eof], false, some .eof)
  | .error e :: _ => ([.failure e], false, some e)
  | .ok .streamEnd :: _ => ([.frame .streamEnd], true, none)
  | .ok f :: rest =>
    if callb f then
      let r := scanLoop callb closeSendErr rest
      (.frame f :: r.1, r.2)
    else
      ([.frame f], true, closeStreamModel closeSendErr rest)

/-- Observable result of a `Scan` or `ScanAll` call.  `ret` is the Go return
value (`none` = nil).  `healthyArg` is the value the deferred `pool.Return`
receives (evaluated at the defer statement); `healthyVar` the final value of
the local `healthy` variable; `lastErr` the final value of `err`, which the
code only logs. -/
structure ScanRun where
  ret : Option QueryError
  trace : List CbEvent
  healthyArg : Bool
  healthyVar : Bool
  lastErr : Option TransportError
deriving DecidableEq

/-- Shallow embedding of `Client.Scan` (client.go lines 139-180), after a
connection has been acquired.  A send failure returns the transport error
(with the local healthy set false, unseen by the deferred Return); otherwise
the driver loop runs and the function returns nil unconditionally. -/
def scanModel (w : ScanWire) (callb : Frame → Bool) : ScanRun :=
  match w.sendErr with
  | some e => ⟨some (.transport e), [], true, false, some e⟩
  | none =>
    let r := scanLoop callb w.closeSendErr w.recvs
    ⟨none, r.1, true, r.2.1, r.2.2⟩

/-- Shallow embedding of `Client.ScanAll` (client.go lines 183-218): identical
request/response structure to `Scan` apart from the request payload. -/
def scanAllModel (w : ScanWire) (callb : Frame → Bool) : ScanRun :=
  match w.sendErr with
  | some e => ⟨some (.transport e), [], true, false, some e⟩
  | none =>
    let r := scanLoop callb w.closeSendErr w.recvs
    ⟨none, r.1, true, r.2.1, r.2.2⟩

/-- Pool configuration: `poolSize` is the idle channel capacity, `poolSize +
poolOverflow` the createsem capacity, `minPoolSizeWM` and `relConnBatchSize`
drive the retention loop.  The latter two are int32 in the source. -/
structure PoolCfg where
  poolSize : Nat
  poolOverflow : Nat
  minPoolSizeWM : Int
  relConnBatchSize : Int
deriving DecidableEq

/-- Pool state: `idleLen` is the number of connections buffered in the
`connections` channel, `permits` the occupancy of the `createsem` channel,
`freeConns` and `curActConns` the two atomic int32 counters, and `closed`
records that `Close` has closed the `connections` channel. -/
structure PoolState where
  idleLen : Nat
  freeConns : Int
  curActConns : Int
  permits : Nat
  closed : Bool
deriving DecidableEq

/-- State of a pool as built by `newConnectionPool`: empty idle channel, empty
semaphore, both counters zero. -/
def initState : PoolState := ⟨0, 0, 0, 0, false⟩

/-- Effect of consuming one idle connection in `GetWithTimeout` (any of the
short-circuit, avail1 or avail2 cases): `freeConns` decremented,
`curActConns` incremented, one connection gone from the channel. -/
def acquireIdleFn (s : PoolState) : PoolState :=
  { s with idleLen := s.idleLen - 1, freeConns := s.freeConns - 1,
           curActConns := s.curActConns + 1 }

/-- Effect of the successful create path of `GetWithTimeout`: the permit sent
into `createsem` stays held and `curActConns` is incremented. -/
def createOkFn (s : PoolState) : PoolState :=
  { s with permits := s.permits + 1, curActConns := s.curActConns + 1 }

/-- Which of the racing events fires inside the Stage C select of
`GetWithTimeout` (pool source lines 188-216): an idle connection is
delivered, the idle channel is closed and empty (receive yields ok=false),
the send into `createsem` succeeds (with the result of the `mkConn` call it
triggers, a dial error being abstracted by its code), or the timer fires. -/
inductive StageCEvent
  | idleConn
  | idleClosed
  | createPermit (mk : Except Nat Unit)
  | timerFired

/-- Result of `GetWithTimeout` as seen by the caller. -/
inductive GetResult
  | conn
  | errClosedPool
  | errTimeout
  | errDial (code : Nat)
deriving DecidableEq

/-- Embedding of the Stage C select body of `GetWithTimeout`.  On a dial
failure the permit just sent into `createsem` is drained again
(`<-cp.createsem`), so the net state is unchanged and the dial error is
returned with a nil connection. -/
def stageC (s : PoolState) : StageCEvent → PoolState × GetResult
  | .idleConn => (acquireIdleFn s, .conn)
  | .idleClosed => (s, .errClosedPool)
  | .createPermit (.ok _) => (createOkFn s, .conn)
  | .createPermit (.error c) => (s, .errDial c)
  | .timerFired => (s, .errTimeout)

/-- What `Return` did with the connection it was handed. -/
inductive RetAction
  | onlyDecrement
  | deposited
  | closedConn
deriving DecidableEq

/-- Shallow embedding of `connectionPool.Return` (pool source lines 236-274).
`connNil` is true when `connectn == nil || connectn.conn == nil`.  The
deferred `atomic.AddInt32(&cp.curActConns, -1)` runs on every path.  A healthy
return attempts a non-blocking send into `connections`: if the channel is
closed the send panics and the recover closes the connection locally; if it is
full the default case drains one permit from `createsem` and closes the
connection; otherwise the deposit succeeds and `freeConns` is incremented.
An unhealthy return drains one permit and closes the connection. -/
def ReturnFn (cfg : PoolCfg) (s : PoolState) (connNil : Bool) (healthy : Bool) :
    PoolState × RetAction :=
  if connNil then
    ({ s with curActConns := s.curActConns - 1 }, .onlyDecrement)
  else if healthy then
    if s.closed then
      ({ s with curActConns := s.curActConns - 1 }, .closedConn)
    else if s.idleLen < cfg.poolSize then
      ({ s with idleLen := s.idleLen + 1, freeConns := s.freeConns + 1,
                curActConns := s.curActConns - 1 }, .deposited)
    else
      ({ s with permits := s.permits - 1, curActConns := s.curActConns - 1 }, .closedConn)
  else
    ({ s with permits := s.permits - 1, curActConns := s.curActConns - 1 }, .closedConn)

/-- Effect of `connectionPool.Close` (pool source lines 125-139): the
`connections` channel is closed and drained, each drained connection closed.
Neither counter nor the semaphore is touched. -/
def closeFn (s : PoolState) : PoolState :=
  { s with idleLen := 0, closed := true }

/-- Go conversion `int32(avg)` of a float: truncation toward zero. -/
def i32trunc (q : ℚ) : Int :=
  if 0 ≤ q then ⌊q⌋ else ⌈q⌉

/-- Embedding of `connectionPool.numConnsToRetain` (pool source lines
283-297).  `rate` is the value `cp.ewma.Rate()` reports.  The pair is the
retention count and the needToFreeConns flag. -/
def numConnsToRetain (cfg : PoolCfg) (rate : ℚ) (s : PoolState) : Int × Bool :=
  let num := max cfg.minPoolSizeWM (max s.curActConns (i32trunc rate))
  let totalConns := s.curActConns + s.freeConns
  if totalConns - cfg.relConnBatchSize ≥ num then
    (totalConns - cfg.relConnBatchSize, true)
  else
    (totalConns, false)

/-- Modelled from the spec: the retention target of spec section 4.4,
`N = max(min_pool_wm, max(cur_active, round(ewma_rate)))`, with `round`
taken as rounding to the nearest integer.  Stated only to compare with the
source function `numConnsToRetain`, which truncates instead. -/
def specRetentionTarget (cfg : PoolCfg) (rate : ℚ) (s : PoolState) : Int :=
  max cfg.minPoolSizeWM (max s.curActConns (round rate))

/-- One iteration of the `for` loop of `connectionPool.releaseConns` (pool
source lines 299-319).  `none` means the function returns.  When the loop
condition holds but the `connections` channel is empty and open, the select
falls to `default: break` — in Go that `break` leaves only the `select`, so
the `for` loop continues with the state unchanged (`some s`).  A receive from
a closed empty channel yields ok=false and the function returns. -/
def relStep (numRetConns : Int) (s : PoolState) : Option PoolState :=
  if s.curActConns + s.freeConns > numRetConns ∧ 0 < s.freeConns then
    match s.idleLen with
    | n + 1 => some { s with idleLen := n, freeConns := s.freeConns - 1 }
    | 0 => if s.closed then none else some s
  else none

/-- Fuel-bounded iteration of `relStep`; with enough fuel this is the state
in which `releaseConns` returns, when it returns at all. -/
def relRun : Nat → Int → PoolState → PoolState
  | 0, _, s => s
  | n + 1, t, s =>
    match relStep t s with
    | none => s
    | some s' => relRun n t s'

/-- Whether `releaseConns` exits within the given number of loop iterations. -/
def relExits : Nat → Int → PoolState → Bool
  | 0, _, _ => false
  | n + 1, t, s =>
    match relStep t s with
    | none => true
    | some s' => relExits n t s'

/-- Value of `CONN_RELEASE_INTERVAL` in the source. -/
def CONN_RELEASE_INTERVAL : Nat := 5

/-- One tick of the body of `releaseConnsRoutine` (pool source lines
321-355), restricted to its retention work: only when the tick counter `i`
equals `CONN_RELEASE_INTERVAL - 1` does the routine tick the EWMA, call
`numConnsToRetain`, and, if needToFreeConns, run `releaseConns`.  The fuel
`s.idleLen + 1` is enough for every terminating run. -/
def routineTick (cfg : PoolCfg) (rate : ℚ) (i : Nat) (s : PoolState) : PoolState :=
  if i = CONN_RELEASE_INTERVAL - 1 then
    let r := numConnsToRetain cfg rate s
    if r.2 then relRun (s.idleLen + 1) r.1 s else s
  else s

/-- Client-facing pool transitions, each an operation of the source under
well-formed use (a connection is returned at most once and only after being
acquired, which the guards `1 ≤ s.curActConns` and `1 ≤ s.permits` record;
callers of `Get` never pass a nil connection to `Return`, since they return
early on an acquisition error).  Constructors: taking an idle connection in
any stage of `GetWithTimeout`; the create path of Stage C, succeeding or
failing; the four live paths of `Return`; and `Close`. -/
inductive BaseStep (cfg : PoolCfg) : PoolState → PoolState → Prop
  | takeIdle (s : PoolState) : 1 ≤ s.idleLen → BaseStep cfg s (acquireIdleFn s)
  | createOk (s : PoolState) : s.permits < cfg.poolSize + cfg.poolOverflow →
      BaseStep cfg s (createOkFn s)
  | createFail (s : PoolState) : s.permits < cfg.poolSize + cfg.poolOverflow →
      BaseStep cfg s s
  | retDeposit (s : PoolState) : 1 ≤ s.curActConns → s.closed = false →
      s.idleLen < cfg.poolSize → BaseStep cfg s (ReturnFn cfg s false true).1
  | retOverflow (s : PoolState) : 1 ≤ s.curActConns → s.closed = false →
      cfg.poolSize ≤ s.idleLen → 1 ≤ s.permits →
      BaseStep cfg s (ReturnFn cfg s false true).1
  | retClosed (s : PoolState) : 1 ≤ s.curActConns → s.closed = true →
      BaseStep cfg s (ReturnFn cfg s false true).1
  | retUnhealthy (s : PoolState) : 1 ≤ s.curActConns → 1 ≤ s.permits →
      BaseStep cfg s (ReturnFn cfg s false false).1
  | closePool (s : PoolState) : BaseStep cfg s (closeFn s)

/-- A full invocation of `releaseConns` by the background routine, performed
when `numConnsToRetain` reports needToFreeConns for the rate the EWMA
currently reports (an EWMA of nonnegative samples is nonnegative).  The
routine only runs before `Close` signals `stopCh`. -/
inductive ShrinkStep (cfg : PoolCfg) : PoolState → PoolState → Prop
  | shrink (s : PoolState) (rate : ℚ) (target : Int) : 0 ≤ rate → s.closed = false →
      numConnsToRetain cfg rate s = (target, true) →
      ShrinkStep cfg s (relRun (s.idleLen + 1) target s)

/-- Any pool transition. -/
inductive Step (cfg : PoolCfg) : PoolState → PoolState → Prop
  | base {s s' : PoolState} : BaseStep cfg s s' → Step cfg s s'
  | shrink {s s' : PoolState} : ShrinkStep cfg s s' → Step cfg s s'

/-- A pool state reachable from the freshly constructed pool. -/
def Reachable (cfg : PoolCfg) (s : PoolState) : Prop :=
  Relation.ReflTransGen (Step cfg) initState s

/-- Inductive invariant of the pool: the semaphore respects its capacity, one
permit covers each counted connection, the idle channel respects its
capacity, `freeConns` tracks the idle channel while the pool is open, and it
can only shrink after `Close`. -/
def Inv (cfg : PoolCfg) (s : PoolState) : Prop :=
  s.permits ≤ cfg.poolSize + cfg.poolOverflow
  ∧ s.freeConns + s.curActConns ≤ (s.permits : Int)
  ∧ s.idleLen ≤ cfg.poolSize
  ∧ (s.closed = false → s.freeConns = (s.idleLen : Int))
  ∧ (s.closed = true → s.freeConns ≤ (cfg.poolSize : Int))

lemma ReturnFn_nil (cfg : PoolCfg) (s : PoolState) (h : Bool) :
    ReturnFn cfg s true h =
      ({ s with curActConns := s.curActConns - 1 }, .onlyDecrement) := by
  simp [ReturnFn]

lemma ReturnFn_deposit (cfg : PoolCfg) (s : PoolState) (hcl : s.closed = false)
    (hi : s.idleLen < cfg.poolSize) :
    ReturnFn cfg s false true =
      ({ s with idleLen := s.idleLen + 1, freeConns := s.freeConns + 1,
                curActConns := s.curActConns - 1 }, .deposited) := by
  simp [ReturnFn, hcl, hi]

lemma ReturnFn_overflow (cfg : PoolCfg) (s : PoolState) (hcl : s.closed = false)
    (hi : cfg.poolSize ≤ s.idleLen) :
    ReturnFn cfg s false true =
      ({ s with permits := s.permits - 1,
                curActConns := s.curActConns - 1 }, .closedConn) := by
  simp [ReturnFn, hcl, Nat.not_lt.mpr hi]

lemma ReturnFn_closed (cfg : PoolCfg) (s : PoolState) (hcl : s.closed = true) :
    ReturnFn cfg s false true =
      ({ s with curActConns := s.curActConns - 1 }, .closedConn) := by
  simp [ReturnFn, hcl]

lemma ReturnFn_unhealthy (cfg : PoolCfg) (s : PoolState) :
    ReturnFn cfg s false false =
      ({ s with permits := s.permits - 1,
                curActConns := s.curActConns - 1 }, .closedConn) := by
  simp [ReturnFn]

lemma relStep_inv {cfg : PoolCfg} {t : Int} {s s' : PoolState}
    (h : relStep t s = some s') (hInv : Inv cfg s) : Inv cfg s' := by
  obtain ⟨h1, h2, h3, h4, h5⟩ := hInv
  unfold relStep at h
  by_cases hc : s.curActConns + s.freeConns > t ∧ 0 < s.freeConns
  · rw [if_pos hc] at h
    cases hidle : s.idleLen with
    | zero =>
      rw [hidle] at h
      by_cases hcl : s.closed
      · simp [hcl] at h
      · simp [hcl] at h
        subst h
        exact ⟨h1, h2, h3, h4, h5⟩
    | succ n =>
      rw [hidle] at h
      injection h with h
      subst h
      refine ⟨h1, by dsimp; omega, by dsimp; omega, ?_, ?_⟩
      · intro hcl
        have := h4 hcl
        dsimp
        omega
      · intro hcl
        have := h5 hcl
        dsimp
        omega
  · rw [if_neg hc] at h
    exact absurd h (by simp)

lemma relRun_inv {cfg : PoolCfg} (n : Nat) (t : Int) (s : PoolState)
    (hInv : Inv cfg s) : Inv cfg (relRun n t s) := by
  induction n generalizing s with
  | zero => exact hInv
  | succ m ih =>
    unfold relRun
    cases h : relStep t s with
    | none => exact hInv
    | some s' => exact ih s' (relStep_inv h hInv)

lemma baseStep_inv {cfg : PoolCfg} {s s' : PoolState}
    (h : BaseStep cfg s s') (hInv : Inv cfg s) : Inv cfg s' := by
  obtain ⟨h1, h2, h3, h4, h5⟩ := hInv
  cases h with
  | takeIdle hi =>
    refine ⟨h1, by simp [acquireIdleFn]; omega, by simp [acquireIdleFn]; omega, ?_, ?_⟩
    · intro hcl
      have := h4 hcl
      simp [acquireIdleFn]
      omega
    · intro hcl
      have := h5 hcl
      simp [acquireIdleFn]
      omega
  | createOk hp =>
    refine ⟨by simp [createOkFn]; omega, by simp [createOkFn]; omega,
      h3, ?_, ?_⟩
    · intro hcl
      exact h4 hcl
    · intro hcl
      exact h5 hcl
  | createFail hp => exact ⟨h1, h2, h3, h4, h5⟩
  | retDeposit ha hcl hi =>
    rw [ReturnFn_deposit cfg s hcl hi]
    refine ⟨h1, by dsimp; omega, by dsimp; omega, ?_, ?_⟩
    · intro _
      have := h4 hcl
      dsimp
      omega
    · intro hcc
      dsimp at hcc
      rw [hcl] at hcc
      exact absurd hcc (by simp)
  | retOverflow ha hcl hi hp =>
    rw [ReturnFn_overflow cfg s hcl hi]
    refine ⟨by dsimp; omega, by dsimp; omega, h3, ?_, ?_⟩
    · intro _
      exact h4 hcl
    · intro hcc
      dsimp at hcc
      rw [hcl] at hcc
      exact absurd hcc (by simp)
  | retClosed ha hcl =>
    rw [ReturnFn_closed cfg s hcl]
    refine ⟨h1, by dsimp; omega, h3, ?_, ?_⟩
    · intro hcc
      dsimp at hcc
      rw [hcl] at hcc
      exact absurd hcc (by simp)
    · intro _
      exact h5 hcl
  | retUnhealthy ha hp =>
    rw [ReturnFn_unhealthy cfg s]
    refine ⟨by dsimp; omega, by dsimp; omega, h3, ?_, ?_⟩
    · intro hcl
      exact h4 hcl
    · intro hcl
      exact h5 hcl
  | closePool =>
    refine ⟨h1, h2, by simp [closeFn], ?_, ?_⟩
    · intro hcc
      simp [closeFn] at hcc
    · intro _
      by_cases hcl : s.closed
      · exact h5 hcl
      · have := h4 (by simpa using hcl)
        simp [closeFn]
        omega

lemma step_inv {cfg : PoolCfg} {s s' : PoolState}
    (h : Step cfg s s') (hInv : Inv cfg s) : Inv cfg s' := by
  cases h with
  | base hb => exact baseStep_inv hb hInv
  | shrink hs =>
    cases hs with
    | shrink rate target hr hcl hn => exact relRun_inv _ _ _ hInv

lemma init_inv (cfg : PoolCfg) : Inv cfg initState := by
  refine ⟨by simp [initState], by simp [initState], by simp [initState], ?_, ?_⟩
  · intro _
    simp [initState]
  · intro h
    simp [initState] at h

lemma reachable_inv {cfg : PoolCfg} {s : PoolState} (h : Reachable cfg s) :
    Inv cfg s := by
  induction h with
  | refl => exact init_inv cfg
  | tail _ hstep ih => exact step_inv hstep ih

lemma relRun_reduces (target : Int) :
    ∀ (n : Nat) (s : PoolState), s.closed = false →
      s.freeConns = (s.idleLen : Int) → s.curActConns ≤ target → s.idleLen ≤ n →
      (relRun (n + 1) target s).curActConns + (relRun (n + 1) target s).freeConns
        ≤ target := by
  intro n
  induction n with
  | zero =>
    intro s hcl hsync hact hlen
    have h0 : s.idleLen = 0 := Nat.le_zero.mp hlen
    have hfree : s.freeConns = 0 := by rw [hsync, h0]; rfl
    have hnone : relStep target s = none := by
      unfold relStep
      rw [if_neg]
      rintro ⟨-, hpos⟩
      omega
    simp only [relRun, hnone]
    omega
  | succ m ih =>
    intro s hcl hsync hact hlen
    cases hstep : relStep target s with
    | none =>
      simp only [relRun, hstep]
      unfold relStep at hstep
      by_cases hc : s.curActConns + s.freeConns > target ∧ 0 < s.freeConns
      · exfalso
        rw [if_pos hc] at hstep
        cases hidle : s.idleLen with
        | zero =>
          rw [hsync, hidle] at hc
          exact absurd hc.2 (by norm_num)
        | succ k =>
          rw [hidle] at hstep
          exact absurd hstep (by simp)
      · have := not_and_or.mp hc
        have hfree0 : 0 ≤ s.freeConns := by rw [hsync]; positivity
        omega
    | some s' =>
      simp only [relRun, hstep]
      unfold relStep at hstep
      by_cases hc : s.curActConns + s.freeConns > target ∧ 0 < s.freeConns
      · rw [if_pos hc] at hstep
        cases hidle : s.idleLen with
        | zero =>
          exfalso
          rw [hsync, hidle] at hc
          exact absurd hc.2 (by norm_num)
        | succ k =>
          rw [hidle] at hstep
          injection hstep with hstep
          subst hstep
          refine ih _ hcl ?_ hact ?_
          · dsimp
            rw [hsync, hidle]
            push_cast
            ring
          · dsimp
            omega
      · rw [if_neg hc] at hstep
        exact absurd hstep (by simp)

/-- C1: the code never returns a connection to the pool as unhealthy.  In
`Statistics`, `Scan` and `ScanAll` the deferred `c.pool.Return(connectn,
healthy)` captures `healthy` at the defer statement, where it is `true`; the
later `healthy = false` assignments only change the dead local variable.  So
a transport send or receive failure leaves the local variable false while the
pool still receives healthy=true, contradicting the claim that the connection
is returned with healthy=false. -/
theorem returnHealthyFlagNeverFalse :
    (∀ w : StatWire, (statisticsModel w).healthyArg = true)
    ∧ (∀ (w : ScanWire) (callb : Frame → Bool), (scanModel w callb).healthyArg = true)
    ∧ (∀ (w : ScanWire) (callb : Frame → Bool), (scanAllModel w callb).healthyArg = true)
    ∧ (statisticsModel ⟨some (.other 7), .ok .streamEnd, .ok .streamEnd⟩).healthyVar = false
    ∧ (scanModel ⟨none, [.error .timeout], none⟩ (fun _ => true)).healthyVar = false
    ∧ (scanAllModel ⟨none, [.error .timeout], none⟩ (fun _ => true)).healthyVar = false := by
  refine ⟨?_, ?_, ?_, rfl, rfl, rfl⟩
  · intro w
    obtain ⟨se, r1, r2⟩ := w
    cases se with
    | some e => rfl
    | none =>
      cases r1 with
      | error e => rfl
      | ok resp =>
        cases r2 with
        | error e => rfl
        | ok endResp =>
          cases endResp with
          | streamEnd =>
            cases resp with
            | statsResp em st => cases em <;> rfl
            | streamEnd => rfl
            | dataFrame p => rfl
          | statsResp em st => rfl
          | dataFrame p => rfl
  · intro w callb
    obtain ⟨se, rs, cse⟩ := w
    cases se <;> rfl
  · intro w callb
    obtain ⟨se, rs, cse⟩ := w
    cases se <;> rfl

/-- C8: the code does not implement the claimed first-frame check.  When the
first received frame is not a statistics response, `Statistics` only returns
`ErrorProtocol` if the second frame also fails the end-of-stream check;
if the second frame is the end-of-stream marker, the unchecked type assertion
on the first frame panics.  And on the genuine second-frame protocol
violation the connection is not marked unhealthy: the local healthy variable
stays true (and the deferred Return received true regardless). -/
theorem statisticsFirstFrameUnchecked :
    statisticsModel ⟨none, .ok .streamEnd, .ok .streamEnd⟩ = ⟨.panicked, true, true⟩
    ∧ statisticsModel ⟨none, .ok (.dataFrame 0), .ok (.dataFrame 1)⟩
        = ⟨.err .protocol, true, true⟩ :=
  ⟨rfl, rfl⟩

/-- C9: once the scan request frame has been sent successfully, `Scan` and
`ScanAll` return nil whatever the rest of the exchange does; a receive
failure reaches the caller only as the error value passed to the response
callback. -/
theorem scanAlwaysReturnsNil :
    ∀ (rs : List RecvResult) (cse : Option TransportError) (callb : Frame → Bool)
      (e : TransportError) (rest : List RecvResult),
    (scanModel ⟨none, rs, cse⟩ callb).ret = none
    ∧ (scanAllModel ⟨none, rs, cse⟩ callb).ret = none
    ∧ (scanModel ⟨none, .error e :: rest, cse⟩ callb).trace = [.failure e]
    ∧ (scanAllModel ⟨none, .error e :: rest, cse⟩ callb).trace = [.failure e] := by
  intro rs cse callb e rest
  exact ⟨rfl, rfl, rfl, rfl⟩

/-- C10: when the second receive of `Statistics` fails, the receive error is
discarded: the nil frame fails the end-of-stream type check, the operation
returns `ErrorProtocol` instead of the transport error, and neither the local
healthy variable nor the flag passed to `Return` becomes false. -/
theorem statisticsSecondRecvErrorDiscarded :
    ∀ (f : Frame) (e : TransportError),
    statisticsModel ⟨none, .ok f, .error e⟩ = ⟨.err .protocol, true, true⟩ := by
  intro f e
  rfl

/-- C3: in Stage C of `GetWithTimeout`, a create permit followed by a failed
make-connection call releases the permit (net state unchanged) and returns
the dial error; a successful call keeps the permit, increments `curActConns`
and returns the connection; the timer firing returns the timeout error. -/
theorem stageCCreateAndTimeout :
    ∀ (s : PoolState) (c : Nat),
    stageC s (.createPermit (.error c)) = (s, .errDial c)
    ∧ (stageC s (.createPermit (.error c))).1.permits = s.permits
    ∧ stageC s (.createPermit (.ok ())) =
        ({ s with permits := s.permits + 1, curActConns := s.curActConns + 1 }, .conn)
    ∧ stageC s .timerFired = (s, .errTimeout) := by
  intro s c
  exact ⟨rfl, rfl, rfl, rfl⟩

/-- C4: `Return` decrements `curActConns` on every path; a nil connection
changes nothing else; a healthy return into a non-full idle buffer deposits
and increments `freeConns`; a healthy return into a full buffer releases one
create permit and closes the connection; an unhealthy return releases one
create permit and closes the connection.  Stated for an open pool holding at
least one permit, as every reachable call site does. -/
theorem returnDecrementsAndCloses (cfg : PoolCfg) (s : PoolState) (cn h : Bool)
    (hclosed : s.closed = false) (hperm : 1 ≤ s.permits) :
    ((ReturnFn cfg s cn h).1.curActConns = s.curActConns - 1)
    ∧ (cn = true → ReturnFn cfg s cn h =
        ({ s with curActConns := s.curActConns - 1 }, .onlyDecrement))
    ∧ (cn = false → h = true → s.idleLen < cfg.poolSize → ReturnFn cfg s cn h =
        ({ s with idleLen := s.idleLen + 1, freeConns := s.freeConns + 1,
                  curActConns := s.curActConns - 1 }, .deposited))
    ∧ (cn = false → h = true → cfg.poolSize ≤ s.idleLen →
        ReturnFn cfg s cn h =
          ({ s with permits := s.permits - 1,
                    curActConns := s.curActConns - 1 }, .closedConn)
        ∧ (ReturnFn cfg s cn h).1.permits + 1 = s.permits)
    ∧ (cn = false → h = false →
        ReturnFn cfg s cn h =
          ({ s with permits := s.permits - 1,
                    curActConns := s.curActConns - 1 }, .closedConn)
        ∧ (ReturnFn cfg s cn h).1.permits + 1 = s.permits) := by
  refine ⟨?_, ?_, ?_, ?_, ?_⟩
  · cases cn with
    | true => rw [ReturnFn_nil]
    | false =>
      cases h with
      | true =>
        by_cases hi : s.idleLen < cfg.poolSize
        · rw [ReturnFn_deposit cfg s hclosed hi]
        · rw [ReturnFn_overflow cfg s hclosed (Nat.le_of_not_lt hi)]
      | false => rw [ReturnFn_unhealthy]
  · intro hcn
    subst hcn
    exact ReturnFn_nil cfg s h
  · intro hcn hh hi
    subst hcn
    subst hh
    exact ReturnFn_deposit cfg s hclosed hi
  · intro hcn hh hi
    subst hcn
    subst hh
    rw [ReturnFn_overflow cfg s hclosed hi]
    exact ⟨rfl, by dsimp; omega⟩
  · intro hcn hh
    subst hcn
    subst hh
    rw [ReturnFn_unhealthy]
    exact ⟨rfl, by dsimp; omega⟩

/-- Configuration used by the witness of `returnDecrementsAndCloses`. -/
def c4cfg : PoolCfg := ⟨2, 1, 0, 1⟩

/-- State used by the witness of `returnDecrementsAndCloses`. -/
def c4state : PoolState := ⟨1, 1, 1, 2, false⟩

/-- Witness for C4: the theorem evaluated at a concrete open pool state. -/
theorem returnDecrementsAndClosesWitness :
    ((ReturnFn c4cfg c4state false true).1.curActConns = c4state.curActConns - 1)
    ∧ (false = true → ReturnFn c4cfg c4state false true =
        ({ c4state with curActConns := c4state.curActConns - 1 }, .onlyDecrement))
    ∧ (false = false → true = true → c4state.idleLen < c4cfg.poolSize →
        ReturnFn c4cfg c4state false true =
          ({ c4state with idleLen := c4state.idleLen + 1,
                          freeConns := c4state.freeConns + 1,
                          curActConns := c4state.curActConns - 1 }, .deposited))
    ∧ (false = false → true = true → c4cfg.poolSize ≤ c4state.idleLen →
        ReturnFn c4cfg c4state false true =
          ({ c4state with permits := c4state.permits - 1,
                          curActConns := c4state.curActConns - 1 }, .closedConn)
        ∧ (ReturnFn c4cfg c4state false true).1.permits + 1 = c4state.permits)
    ∧ (false = false → true = false →
        ReturnFn c4cfg c4state false true =
          ({ c4state with permits := c4state.permits - 1,
                          curActConns := c4state.curActConns - 1 }, .closedConn)
        ∧ (ReturnFn c4cfg c4state false true).1.permits + 1 = c4state.permits) :=
  returnDecrementsAndCloses c4cfg c4state false true rfl (by decide)

/-- C7: in every reachable pool state, `freeConns` is at most `poolSize` and
`freeConns + curActConns` is at most `poolSize + poolOverflow`. -/
theorem poolCounterBounds (cfg : PoolCfg) (s : PoolState) (h : Reachable cfg s) :
    s.freeConns ≤ (cfg.poolSize : Int)
    ∧ s.freeConns + s.curActConns ≤ (cfg.poolSize : Int) + (cfg.poolOverflow : Int) := by
  obtain ⟨h1, h2, h3, h4, h5⟩ := reachable_inv h
  constructor
  · by_cases hcl : s.closed
    · exact h5 hcl
    · have := h4 (by simpa using hcl)
      omega
  · omega

/-- Witness for C7: the bounds at the freshly constructed pool. -/
theorem poolCounterBoundsWitness :
    initState.freeConns ≤ (((⟨1, 1, 0, 1⟩ : PoolCfg)).poolSize : Int)
    ∧ initState.freeConns + initState.curActConns
        ≤ (((⟨1, 1, 0, 1⟩ : PoolCfg)).poolSize : Int)
          + (((⟨1, 1, 0, 1⟩ : PoolCfg)).poolOverflow : Int) :=
  poolCounterBounds ⟨1, 1, 0, 1⟩ initState Relation.ReflTransGen.refl

/-- C2 (amended): every client-facing operation — taking an idle connection,
creating (with the permit kept on success and released on failure), and every
live path of `Return` — preserves the permit equality `permits = freeConns +
curActConns` while the pool is open.  The shrink loop is not among them: it
closes idle connections without releasing permits (see the counterexample
`shrinkPermitLeak`). -/
theorem basePermitEquality (cfg : PoolCfg) (s s' : PoolState)
    (hstep : BaseStep cfg s s')
    (heq : s.freeConns + s.curActConns = (s.permits : Int))
    (hcl : s'.closed = false) :
    s'.freeConns + s'.curActConns = (s'.permits : Int) := by
  cases hstep with
  | takeIdle hi =>
    simp only [acquireIdleFn]
    omega
  | createOk hp =>
    simp only [createOkFn]
    omega
  | createFail hp => exact heq
  | retDeposit ha hclosed hi =>
    rw [ReturnFn_deposit cfg s hclosed hi]
    dsimp
    omega
  | retOverflow ha hclosed hi hp =>
    rw [ReturnFn_overflow cfg s hclosed hi]
    dsimp
    omega
  | retClosed ha hclosed =>
    exfalso
    rw [ReturnFn_closed cfg s hclosed] at hcl
    dsimp at hcl
    rw [hclosed] at hcl
    exact absurd hcl (by simp)
  | retUnhealthy ha hp =>
    rw [ReturnFn_unhealthy]
    dsimp
    omega
  | closePool =>
    exfalso
    simp [closeFn] at hcl

/-- Witness for C2: the create step from the fresh pool preserves the permit
equality. -/
theorem basePermitEqualityWitness :
    (createOkFn initState).freeConns + (createOkFn initState).curActConns
      = ((createOkFn initState).permits : Int) :=
  basePermitEquality ⟨1, 0, 0, 1⟩ initState (createOkFn initState)
    (BaseStep.createOk initState (by decide)) (by decide) rfl

/-- Pool configuration of the C2 counterexample: poolSize 1, no overflow,
retention watermark 0, release batch 1. -/
def c2cfg : PoolCfg := ⟨1, 0, 0, 1⟩

/-- State reached after create, healthy return, and one shrink invocation:
the closed connection left its permit held. -/
def c2leakState : PoolState := ⟨0, 0, 0, 1, false⟩

/-- C2 counterexample: a reachable state in which the shrink loop has closed
a connection without releasing its permit, so the claimed equality
`permits = freeConns + curActConns` fails.  The run: Stage C creates a
connection (permit held), the caller returns it healthy (deposited idle),
and the retention loop, with the EWMA reporting rate 0, shrinks the pool by
one connection and keeps the permit. -/
theorem shrinkPermitLeak :
    Reachable c2cfg c2leakState
    ∧ ¬(c2leakState.freeConns + c2leakState.curActConns
        = (c2leakState.permits : Int)) := by
  constructor
  · have step1 : Step c2cfg initState (createOkFn initState) :=
      .base (.createOk initState (by decide))
    have hs2 : (ReturnFn c2cfg (createOkFn initState) false true).1
        = (⟨1, 1, 0, 1, false⟩ : PoolState) := by decide
    have step2 : Step c2cfg (createOkFn initState) (⟨1, 1, 0, 1, false⟩ : PoolState) := by
      rw [← hs2]
      exact .base (.retDeposit (createOkFn initState) (by decide) rfl (by decide))
    have hnum : numConnsToRetain c2cfg 0 (⟨1, 1, 0, 1, false⟩ : PoolState) = (0, true) := by
      norm_num [numConnsToRetain, i32trunc, c2cfg]
    have hrun : relRun 2 0 (⟨1, 1, 0, 1, false⟩ : PoolState) = c2leakState := by decide
    have step3 : Step c2cfg (⟨1, 1, 0, 1, false⟩ : PoolState) c2leakState := by
      rw [← hrun]
      exact .shrink (.shrink (⟨1, 1, 0, 1, false⟩ : PoolState) 0 0 le_rfl rfl hnum)
    exact Relation.ReflTransGen.tail
      (Relation.ReflTransGen.tail (Relation.ReflTransGen.single step1) step2) step3
  · decide

/-- C5 (amended, rounding replaced by Go truncation): the retention work runs
only on every fifth tick; on that tick the target is
`N = max(minPoolSizeWM, max(curActConns, int32(rate)))` where `int32`
truncates toward zero, the shrink is invoked exactly when
`curActConns + freeConns - relConnBatchSize ≥ N`, and when invoked it leaves
at most `curActConns + freeConns - relConnBatchSize` connections.  Stated for
an open pool whose `freeConns` counter agrees with the idle buffer. -/
theorem retentionTickBehaviour (cfg : PoolCfg) (rate : ℚ) (i : Nat) (s : PoolState)
    (hcl : s.closed = false) (hsync : s.freeConns = (s.idleLen : Int)) :
    (i ≠ 4 → routineTick cfg rate i s = s)
    ∧ ((numConnsToRetain cfg rate s).2 = true ↔
        s.curActConns + s.freeConns - cfg.relConnBatchSize
          ≥ max cfg.minPoolSizeWM (max s.curActConns (i32trunc rate)))
    ∧ ((numConnsToRetain cfg rate s).2 = false → routineTick cfg rate 4 s = s)
    ∧ ((numConnsToRetain cfg rate s).2 = true →
        (routineTick cfg rate 4 s).curActConns + (routineTick cfg rate 4 s).freeConns
          ≤ s.curActConns + s.freeConns - cfg.relConnBatchSize) := by
  have hint : CONN_RELEASE_INTERVAL - 1 = 4 := rfl
  refine ⟨?_, ?_, ?_, ?_⟩
  · intro hi
    unfold routineTick
    rw [hint, if_neg hi]
  · unfold numConnsToRetain
    by_cases hc : s.curActConns + s.freeConns - cfg.relConnBatchSize
        ≥ max cfg.minPoolSizeWM (max s.curActConns (i32trunc rate))
    · rw [if_pos hc]
      simpa using hc
    · rw [if_neg hc]
      simpa using hc
  · intro hfalse
    unfold routineTick
    rw [hint, if_pos rfl]
    show (if (numConnsToRetain cfg rate s).2 = true then
        relRun (s.idleLen + 1) (numConnsToRetain cfg rate s).1 s else s) = s
    rw [hfalse]
    simp
  · intro htrue
    unfold numConnsToRetain at htrue
    by_cases hc : s.curActConns + s.freeConns - cfg.relConnBatchSize
        ≥ max cfg.minPoolSizeWM (max s.curActConns (i32trunc rate))
    · have htarget : numConnsToRetain cfg rate s
          = (s.curActConns + s.freeConns - cfg.relConnBatchSize, true) := by
        unfold numConnsToRetain
        rw [if_pos hc]
      have hact : s.curActConns ≤ s.curActConns + s.freeConns - cfg.relConnBatchSize :=
        le_trans (le_trans (le_max_left _ _) (le_max_right _ _)) hc
      unfold routineTick
      rw [hint, if_pos rfl]
      show ((if (numConnsToRetain cfg rate s).2 = true then
              relRun (s.idleLen + 1) (numConnsToRetain cfg rate s).1 s
            else s)).curActConns
          + ((if (numConnsToRetain cfg rate s).2 = true then
              relRun (s.idleLen + 1) (numConnsToRetain cfg rate s).1 s
            else s)).freeConns
          ≤ s.curActConns + s.freeConns - cfg.relConnBatchSize
      rw [htarget]
      dsimp
      exact relRun_reduces _ s.idleLen s hcl hsync hact le_rfl
    · rw [if_neg hc] at htrue
      exact absurd htrue (by simp)

/-- Witness for C5: the amended theorem evaluated at the fresh pool with rate
0 on a non-fifth tick. -/
theorem retentionTickBehaviourWitness :
    (0 ≠ 4 → routineTick ⟨1, 0, 0, 1⟩ 0 0 initState = initState)
    ∧ ((numConnsToRetain ⟨1, 0, 0, 1⟩ 0 initState).2 = true ↔
        initState.curActConns + initState.freeConns
            - (⟨1, 0, 0, 1⟩ : PoolCfg).relConnBatchSize
          ≥ max (⟨1, 0, 0, 1⟩ : PoolCfg).minPoolSizeWM
              (max initState.curActConns (i32trunc 0)))
    ∧ ((numConnsToRetain ⟨1, 0, 0, 1⟩ 0 initState).2 = false →
        routineTick ⟨1, 0, 0, 1⟩ 0 4 initState = initState)
    ∧ ((numConnsToRetain ⟨1, 0, 0, 1⟩ 0 initState).2 = true →
        (routineTick ⟨1, 0, 0, 1⟩ 0 4 initState).curActConns
            + (routineTick ⟨1, 0, 0, 1⟩ 0 4 initState).freeConns
          ≤ initState.curActConns + initState.freeConns
            - (⟨1, 0, 0, 1⟩ : PoolCfg).relConnBatchSize) :=
  retentionTickBehaviour ⟨1, 0, 0, 1⟩ 0 0 initState rfl rfl

/-- Pool configuration of the C5 counterexample. -/
def c5cfg : PoolCfg := ⟨4, 0, 0, 1⟩

/-- State of the C5 counterexample: three idle connections, none active. -/
def c5state : PoolState := ⟨3, 3, 0, 3, false⟩

/-- C5 counterexample: with the EWMA reporting 5/2, the code truncates the
rate to 2 and shrinks (needToFreeConns is true), while the target of the
claim, computed with rounding, is 3 and forbids the shrink — so the claimed
if-and-only-if fails. -/
theorem retentionRoundingMismatch :
    (numConnsToRetain c5cfg (5/2) c5state).2 = true
    ∧ ¬(c5state.curActConns + c5state.freeConns - c5cfg.relConnBatchSize
        ≥ specRetentionTarget c5cfg (5/2) c5state) := by
  constructor
  · norm_num [numConnsToRetain, i32trunc, c5cfg, c5state]
  · norm_num [specRetentionTarget, round_eq, c5cfg, c5state]

/-- State exhibiting the C6 bug: the counters order a shrink but the idle
channel is empty.  Such a snapshot occurs when a concurrent acquire has taken
the buffered connection but not yet decremented `freeConns` (the source
declares the two counters unsynchronised). -/
def c6state : PoolState := ⟨0, 1, 0, 0, false⟩

/-- C6: the loop of `releaseConns` does not stop when no idle connection is
available.  Its `default: break` leaves only the `select`, not the `for`, so
from a state where the loop condition holds and the idle channel is empty the
iteration repeats with the state unchanged and the function never returns:
`relStep` maps the state to itself, and no number of iterations exits. -/
theorem releaseConnsSpinsOnEmptyIdle :
    relStep 0 c6state = some c6state ∧ ∀ n : Nat, relExits n 0 c6state = false := by
  have hstep : relStep 0 c6state = some c6state := by decide
  refine ⟨hstep, ?_⟩
  intro n
  induction n with
  | zero => rfl
  | succ m ih =>
    simp only [relExits, hstep]
    exact ih

end Queryport
